import Mathlib

/-!
Verification of the reporting-data fetch-and-validate layer of the
Data-Job-Vacancy-Insight repository, as a shallow embedding of
`src/dashboard_src/pages/home_pages.py` and `utils/dashboard_utils.py`.

Modelling conventions:
* A pandas DataFrame is a list of typed rows; the empty DataFrame is `[]`.
* A date-like value (a `crawl_date` cell, which may arrive from the
  warehouse as a full timestamp or as a calendar-date string) is a
  `DateTimeVal`: a calendar day (`day`) plus a time-of-day component
  (`tod`).  A pure calendar date has `tod = 0`; `pd.to_datetime(x).dt.date`
  is modelled by `toDateOnly`, which zeroes the time component.
* Python exceptions are modelled with `Option`/`Except`: a function that
  can raise returns `none`/`Except.error` there.  A Lean function that is
  total models a Python function that cannot raise on the modelled inputs.
* Logging is modelled by a `Bool` flag (an error-level entry was emitted)
  or, for the whole-page loader, by explicit record fields.
-/

/-- A date-like value: calendar day ordinal plus time-of-day.  Values fetched
from the warehouse may be full timestamps (`tod` possibly nonzero); requested
crawl dates are calendar dates (`tod = 0`). -/
structure DateTimeVal where
  day : Int
  tod : Int
deriving DecidableEq

/-- Models `pd.to_datetime(x).dt.date` / `pd.to_datetime(x).date()`:
coercion of a date-like value to calendar-date granularity. -/
def toDateOnly (v : DateTimeVal) : DateTimeVal := ⟨v.day, 0⟩

/-- One row of a fetched DataFrame as seen by the crawl-date-validating
dashboard wrappers in `home_pages.py`: those wrappers touch only the
`crawl_date` column and row identity, so the remaining columns are lumped
into an opaque `payload`. -/
structure DRow where
  payload : Int
  crawl_date : DateTimeVal
deriving DecidableEq

/-- Embeds `fetch_openings_statistics_for_dashboard` (home_pages.py lines
24-39), given the DataFrame returned by
`fetcher.fetch_openings_statistics_metrics`.  Note the comparison
`all(data['crawl_date'] == crawl_date)` is on the raw values, with no
calendar-date coercion.  The second component records whether an
error-level inconsistency log was emitted. -/
def fetch_openings_statistics_for_dashboard (data : List DRow)
    (crawl_date : DateTimeVal) : List DRow × Bool :=
  if data.isEmpty then ([], false)
  else if data.all (fun r => r.crawl_date == crawl_date) then (data, false)
  else ([], true)

/-- Embeds `fetch_data_role_for_dashboard` (home_pages.py lines 58-77):
coerces the column and the provided date to calendar dates, then returns all
rows on full agreement and the empty DataFrame otherwise. -/
def fetch_data_role_for_dashboard (data : List DRow)
    (crawl_date : DateTimeVal) : List DRow × Bool :=
  if data.isEmpty then ([], false)
  else
    let data2 := data.map (fun r => { r with crawl_date := toDateOnly r.crawl_date })
    let provided_date := toDateOnly crawl_date
    if data2.all (fun r => r.crawl_date == provided_date) then (data2, false)
    else ([], true)

/-- Embeds `fetch_data_tools_for_dashboard` (home_pages.py lines 79-100):
coerces to calendar dates; on mismatch filters to the consistent subset
(returning the empty DataFrame when that subset is empty). -/
def fetch_data_tools_for_dashboard (data : List DRow)
    (crawl_date : DateTimeVal) : List DRow × Bool :=
  if data.isEmpty then ([], false)
  else
    let data2 := data.map (fun r => { r with crawl_date := toDateOnly r.crawl_date })
    let provided_date := toDateOnly crawl_date
    if data2.all (fun r => r.crawl_date == provided_date) then (data2, false)
    else
      let consistent_data := data2.filter (fun r => r.crawl_date == provided_date)
      (if consistent_data.isEmpty then [] else consistent_data, true)

/-- Embeds `fetch_openings_company_for_dashboard` (home_pages.py lines
102-123); same shape as the data-tools wrapper. -/
def fetch_openings_company_for_dashboard (data : List DRow)
    (crawl_date : DateTimeVal) : List DRow × Bool :=
  if data.isEmpty then ([], false)
  else
    let data2 := data.map (fun r => { r with crawl_date := toDateOnly r.crawl_date })
    let provided_date := toDateOnly crawl_date
    if data2.all (fun r => r.crawl_date == provided_date) then (data2, false)
    else
      let consistent_data := data2.filter (fun r => r.crawl_date == provided_date)
      (if consistent_data.isEmpty then [] else consistent_data, true)

/-- Embeds `fetch_taiepi_area_openings_for_dashboard` (home_pages.py lines
125-146); same shape as the data-tools wrapper. -/
def fetch_taiepi_area_openings_for_dashboard (data : List DRow)
    (crawl_date : DateTimeVal) : List DRow × Bool :=
  if data.isEmpty then ([], false)
  else
    let data2 := data.map (fun r => { r with crawl_date := toDateOnly r.crawl_date })
    let provided_date := toDateOnly crawl_date
    if data2.all (fun r => r.crawl_date == provided_date) then (data2, false)
    else
      let consistent_data := data2.filter (fun r => r.crawl_date == provided_date)
      (if consistent_data.isEmpty then [] else consistent_data, true)

/-!
SQL expression semantics for the change-percentage and tool-percentage
columns of `fetch_openings_statistics_metrics` (dashboard_utils.py lines
88-124) and `fetch_data_tool` (lines 214-229).  SQL NULL is `Option.none`;
arithmetic operators propagate NULL; numeric values are rationals.
-/

/-- Models the SQL `NULLIF(x, 0)`. -/
def nullif_zero (x : ℚ) : Option ℚ := if x = 0 then none else some x

/-- NULL-propagating SQL subtraction. -/
def sql_sub (a b : Option ℚ) : Option ℚ :=
  match a, b with
  | some x, some y => some (x - y)
  | _, _ => none

/-- NULL-propagating SQL division (in the expressions modelled here the
divisor is guarded by `NULLIF(_, 0)`, so an actual division by zero never
occurs). -/
def sql_div (a b : Option ℚ) : Option ℚ :=
  match a, b with
  | some x, some y => some (x / y)
  | _, _ => none

/-- NULL-propagating SQL multiplication. -/
def sql_mul (a b : Option ℚ) : Option ℚ :=
  match a, b with
  | some x, some y => some (x * y)
  | _, _ => none

/-- Models SQL `COALESCE(a, d)`. -/
def coalesce (a : Option ℚ) (d : ℚ) : ℚ := a.getD d

/-- The period-over-period change-percentage expression
`COALESCE(((cur - prev) / NULLIF(CAST(prev AS FLOAT), 0)) * 100.0, 0)`
used for all five metrics (total openings, closed openings, new openings,
fill rate, average weeks to fill) in `fetch_openings_statistics_metrics`.
`prev` comes from a `LEAD` window and may be NULL (absent previous period). -/
def change_pct (cur : ℚ) (prev : Option ℚ) : ℚ :=
  coalesce (sql_mul (sql_div (sql_sub (some cur) prev) (prev.bind nullif_zero)) (some 100)) 0

/-- The tool-ranking percentage expression
`COALESCE(tool_count::float / NULLIF(total_openings, 0) * 100, 0)` of
`fetch_data_tool`; `total_openings` comes from a LEFT JOIN and may be NULL. -/
def percentage_of_tool (tool_count : ℚ) (total_openings : Option ℚ) : ℚ :=
  coalesce (sql_mul (sql_div (some tool_count) (total_openings.bind nullif_zero)) (some 100)) 0

/-!
Company-name normalization (`adjust_company_name`, dashboard_utils.py lines
268-274).  Python strings are modelled as character lists;
`name.split('_')[0]` is the prefix before the first underscore, i.e.
`takeWhile`.  The regular-expression search `re.search(r'\((.*?)\)', name)`
matches at the leftmost `(` that is followed by a later `)`, and its lazy
group captures the characters up to the first `)` after that `(`; when no
such match exists `re.search` returns `None` and the subsequent `.group(1)`
raises `AttributeError` - modelled as `Option.none`.
-/

/-- Scans for the closing parenthesis: the characters captured by the lazy
group after an opening parenthesis, i.e. everything up to the first `)`;
`none` when no `)` follows. -/
def parenGroupFrom : List Char → Option (List Char)
  | [] => none
  | c :: cs => if c = ')' then some [] else (parenGroupFrom cs).map (fun g => c :: g)

/-- The leftmost regex match of `\((.*?)\)`: the first `(` that is followed
by a later `)`, capturing up to the first `)` after it. -/
def firstParenGroup : List Char → Option (List Char)
  | [] => none
  | c :: cs =>
    if c = '(' then
      match parenGroupFrom cs with
      | some g => some g
      | none => firstParenGroup cs
    else firstParenGroup cs

/-- Embeds `adjust_company_name`.  The result is `none` exactly when the
Python function raises (both parenthesis characters present but `re.search`
finds no `( ... )` match, so `.group(1)` is called on `None`). -/
def adjust_company_name (name : List Char) : Option (List Char) :=
  if name.contains '_' then some (name.takeWhile (fun c => c != '_'))
  else if name.contains '(' && name.contains ')' then firstParenGroup name
  else some name

/-!
Stable descending / ascending sorts keyed by an integer projection, used to
model pandas `Series.nlargest` / `DataFrame.nlargest` (sort descending, take
the first k) and the SQL `ORDER BY` clauses of `fetch_openings_history`.
-/

/-- Inserts `a` into a descending-sorted list, after every element whose key
is at least as large (stable). -/
def insertDescBy {α : Type} (f : α → Int) (a : α) : List α → List α
  | [] => [a]
  | b :: bs => if f b < f a then a :: b :: bs else b :: insertDescBy f a bs

/-- Insertion sort by descending key. -/
def sortDescBy {α : Type} (f : α → Int) : List α → List α
  | [] => []
  | a :: as => insertDescBy f a (sortDescBy f as)

/-- Inserts `a` into an ascending-sorted list (stable). -/
def insertAscBy {α : Type} (f : α → Int) (a : α) : List α → List α
  | [] => [a]
  | b :: bs => if f a < f b then a :: b :: bs else b :: insertAscBy f a bs

/-- Insertion sort by ascending key. -/
def sortAscBy {α : Type} (f : α → Int) : List α → List α
  | [] => []
  | a :: as => insertAscBy f a (sortAscBy f as)

/-!
The query/result data-access layer of `FetchReportData`
(utils/dashboard_utils.py).  `execute_query` (lines 32-44) takes the
backend's outcome for the issued query - either the fetched row list or a
raised exception - and returns the Python return value (`some rows`, or
`none` for Python `None` on failure) together with a flag recording that an
error-level log entry was emitted.
-/

/-- Embeds `FetchReportData.execute_query`: returns the fetched rows, or
Python `None` plus an error log when the cursor raised. -/
def execute_query {ρ : Type} (backend : Except String (List ρ)) :
    Option (List ρ) × Bool :=
  match backend with
  | Except.ok rows => (some rows, false)
  | Except.error _ => (none, true)

/-- The value a metric fetcher hands back to Python callers: `ret` is the
returned object (`some rows` = a DataFrame with those rows, `none` = Python
`None`, which never occurs for the metric fetchers), and `logged` records
that some log entry (info or error) was emitted. -/
structure FetchOut (ρ : Type) where
  ret : Option (List ρ)
  logged : Bool
deriving DecidableEq

/-- Embeds the result handling of `fetch_openings_statistics_metrics`
(dashboard_utils.py lines 82-138): non-empty query result becomes a
DataFrame, empty result or query failure becomes the empty DataFrame, and a
log entry is emitted in every branch; exceptions inside the body are caught
and also yield the empty DataFrame.  The row type is a parameter because
this handling is independent of the column layout. -/
def fetch_openings_statistics_metrics {ρ : Type}
    (backend : Except String (List ρ)) : FetchOut ρ :=
  match (execute_query backend).1 with
  | some (r :: rs) => { ret := some (r :: rs), logged := true }
  | some [] => { ret := some [], logged := true }
  | none => { ret := some [], logged := true }

/-- The SQL semantics of the `fetch_openings_history` query
(dashboard_utils.py lines 146-157): one row per metrics-table row, inner
`ORDER BY crawl_date DESC LIMIT 12`, outer `ORDER BY crawl_date ASC`. -/
structure MetricsRow where
  total_openings : Int
  crawl_date : Int
deriving DecidableEq

/-- Evaluates the `fetch_openings_history` query over the
`rpt_job_openings_metrics` table. -/
def openings_history_query (table : List MetricsRow) : List MetricsRow :=
  sortAscBy (fun r => r.crawl_date) ((sortDescBy (fun r => r.crawl_date) table).take 12)

/-- Embeds the result handling of `fetch_openings_history`
(dashboard_utils.py lines 140-171); same shape as the other fetchers. -/
def fetch_openings_history {ρ : Type}
    (backend : Except String (List ρ)) : FetchOut ρ :=
  match (execute_query backend).1 with
  | some (r :: rs) => { ret := some (r :: rs), logged := true }
  | some [] => { ret := some [], logged := true }
  | none => { ret := some [], logged := true }

/-- Embeds the result handling of `fetch_data_role` (dashboard_utils.py
lines 173-206). -/
def fetch_data_role {ρ : Type}
    (backend : Except String (List ρ)) : FetchOut ρ :=
  match (execute_query backend).1 with
  | some (r :: rs) => { ret := some (r :: rs), logged := true }
  | some [] => { ret := some [], logged := true }
  | none => { ret := some [], logged := true }

/-- Embeds the result handling of `fetch_data_tool` (dashboard_utils.py
lines 208-244). -/
def fetch_data_tool {ρ : Type}
    (backend : Except String (List ρ)) : FetchOut ρ :=
  match (execute_query backend).1 with
  | some (r :: rs) => { ret := some (r :: rs), logged := true }
  | some [] => { ret := some [], logged := true }
  | none => { ret := some [], logged := true }

/-- A row of `rpt_weekly_company_job_vacancies` as used by
`fetch_openings_company`; the company name is a character list. -/
structure CompanyRow where
  rank : Int
  company_name : List Char
  opening_count : Int
  crawl_date : Int
deriving DecidableEq

/-- Embeds `fetch_openings_company` (dashboard_utils.py lines 246-284):
after a non-empty fetch it applies `adjust_company_name` to every company
name inside the try block; if the adjustment raises on any name the
exception is caught and the empty DataFrame is returned with an error log. -/
def fetch_openings_company (backend : Except String (List CompanyRow)) :
    FetchOut CompanyRow :=
  match (execute_query backend).1 with
  | some (r :: rs) =>
    match (r :: rs).mapM
        (fun row => (adjust_company_name row.company_name).map
          (fun n => { row with company_name := n })) with
    | some adjusted => { ret := some adjusted, logged := true }
    | none => { ret := some [], logged := true }
  | some [] => { ret := some [], logged := true }
  | none => { ret := some [], logged := true }

/-- Embeds the result handling of `fetch_taiepi_area_openings`
(dashboard_utils.py lines 286-314). -/
def fetch_taiepi_area_openings {ρ : Type}
    (backend : Except String (List ρ)) : FetchOut ρ :=
  match (execute_query backend).1 with
  | some (r :: rs) => { ret := some (r :: rs), logged := true }
  | some [] => { ret := some [], logged := true }
  | none => { ret := some [], logged := true }

/-- Embeds the result handling of `fetch_tool_by_data_role`
(dashboard_utils.py lines 316-344). -/
def fetch_tool_by_data_role {ρ : Type}
    (backend : Except String (List ρ)) : FetchOut ρ :=
  match (execute_query backend).1 with
  | some (r :: rs) => { ret := some (r :: rs), logged := true }
  | some [] => { ret := some [], logged := true }
  | none => { ret := some [], logged := true }

/-- Embeds the result handling of `fetch_tool_trends` (dashboard_utils.py
lines 346-374). -/
def fetch_tool_trends {ρ : Type}
    (backend : Except String (List ρ)) : FetchOut ρ :=
  match (execute_query backend).1 with
  | some (r :: rs) => { ret := some (r :: rs), logged := true }
  | some [] => { ret := some [], logged := true }
  | none => { ret := some [], logged := true }

/-!
Snapshot-marker resolution (`get_newest_crawl_date`, dashboard_utils.py
lines 60-80).  Dates are integers under their calendar order.  The SQL
`SELECT MAX(crawl_date) ...` over the metrics table yields exactly one row,
whose single cell is NULL when the table is empty.
-/

/-- The result set of the MAX-aggregate query over the metrics table. -/
def sql_max_crawl_date (table : List Int) : List (Option Int) :=
  [table.max?]

/-- Embeds `get_newest_crawl_date`: returns the first cell of the first row
when the result is non-empty and that cell is not NULL, and `none` (the
no-marker sentinel) otherwise, including when `execute_query` failed;
the surrounding try/except means no exception escapes. -/
def get_newest_crawl_date (backend : Except String (List (Option Int))) :
    Option Int :=
  match (execute_query backend).1 with
  | some (cell :: _) =>
    match cell with
    | some d => some d
    | none => none
  | some [] => none
  | none => none

/-!
Tool-trend aggregation (`CreateReportChart.create_tool_trends_line_chart`,
dashboard_utils.py lines 645-673, and `create_tool_popularity_bar_chart`,
lines 766-787).  The input is the unscoped tool-by-role series.  pandas
`groupby(...).sum()` is modelled by `groupSum`; pandas orders the groups by
sorted key while `groupSum` keeps first-occurrence key order - the
properties proved below are insensitive to group order (the top-K selection
is keyed on the summed totals, which are assumed pairwise distinct exactly
as in the spec's test scenario).  `nlargest` is descending sort followed by
`take`.
-/

/-- A row of `rpt_data_tools_by_data_role` as fetched by
`fetch_tool_by_data_role`: (data_role, category, tool_name, count,
crawl_date). -/
structure ToolRoleRow where
  data_role : String
  category : String
  tool_name : String
  count : Int
  crawl_date : Int
deriving DecidableEq

/-- The four filter branches shared by both chart builders: each of the
role / category filters applies only when its selection is not the
wildcard value. -/
def wildcardFilter (rows : List ToolRoleRow)
    (selected_datarole selected_category : String) : List ToolRoleRow :=
  if selected_datarole = "All" ∧ selected_category = "All" then rows
  else if selected_datarole = "All" then
    rows.filter (fun r => r.category == selected_category)
  else if selected_category = "All" then
    rows.filter (fun r => r.data_role == selected_datarole)
  else
    rows.filter (fun r => r.data_role == selected_datarole && r.category == selected_category)

/-- Models `xs.groupby(key)[val].sum().reset_index()`: one output pair per
distinct key, carrying the sum of `val` over the rows with that key. -/
def groupSum {α κ : Type} [DecidableEq κ] (key : α → κ) (val : α → Int)
    (xs : List α) : List (κ × Int) :=
  (xs.map key).dedup.map
    (fun k => (k, ((xs.filter (fun x => decide (key x = k))).map val).sum))

/-- Models `series.nlargest(k).index` / the keys of `df.nlargest(k, col)`:
the keys of the k pairs with the largest values. -/
def nlargestKeys {κ : Type} (k : Nat) (totals : List (κ × Int)) : List κ :=
  ((sortDescBy (fun p => p.2) totals).take k).map (fun p => p.1)

/-- The data reduction of `create_tool_trends_line_chart`: filter by the
selections, group by (tool_name, crawl_date) summing counts, then keep only
the rows of the top-10 tools by total summed count. -/
def create_tool_trends_line_chart (rows : List ToolRoleRow)
    (selected_datarole selected_category : String) : List ((String × Int) × Int) :=
  let filtered_data := wildcardFilter rows selected_datarole selected_category
  let grouped_data := groupSum (fun r => (r.tool_name, r.crawl_date)) (fun r => r.count) filtered_data
  let top_tools := nlargestKeys 10 (groupSum (fun g => g.1.1) (fun g => g.2) grouped_data)
  grouped_data.filter (fun g => decide (g.1.1 ∈ top_tools))

/-- The data reduction of `create_tool_popularity_bar_chart`: filter by the
selections, group by tool_name summing counts across all markers and roles,
then keep the 5 pairs with the largest totals. -/
def create_tool_popularity_bar_chart (rows : List ToolRoleRow)
    (selected_datarole selected_category : String) : List (String × Int) :=
  let filtered_data := wildcardFilter rows selected_datarole selected_category
  let grouped_data := groupSum (fun r => r.tool_name) (fun r => r.count) filtered_data
  (sortDescBy (fun p => p.2) grouped_data).take 5

/-!
The page-load controller `load_home_page_data` (home_pages.py lines
149-186).  Its environment fixes the outcome of marker resolution and of
each of the six dashboard fetch wrappers (a wrapper can raise, e.g. when
`pd.to_datetime` meets an unparseable crawl_date value fetched from the
warehouse, so each outcome is an `Except`).  The function body has no
try/finally: the `connection.close()` call is reached only by falling
through both branches of the `if newest_crawl_date:` statement, and the
final `return` names six locals that are assigned only inside the then
branch.  DataFrame contents are irrelevant here and stand as `List Int`.
-/

/-- A Python exception escaping `load_home_page_data`. -/
inductive PyError where
  | unboundLocal : PyError
  | raised : String → PyError
deriving DecidableEq

/-- Observable outcome of one `load_home_page_data` run: the returned value
or escaping exception, the wrappers that were invoked (in order), and
whether `fetcher.connection.close()` ran. -/
structure HomeRun where
  result : Except PyError (List Int × List Int × List Int × List Int × List Int × List Int)
  fetches_called : List String
  closed : Bool

/-- Environment of one `load_home_page_data` run: the resolved newest crawl
date (the no-marker sentinel is `none`) and the outcome of each dashboard
fetch wrapper, plus the truthiness of `fetcher.connection`. -/
structure HomeEnv where
  newest_crawl_date : Option Int
  stats_res : Except String (List Int)
  hist_res : Except String (List Int)
  role_res : Except String (List Int)
  tools_res : Except String (List Int)
  company_res : Except String (List Int)
  taipei_res : Except String (List Int)
  connection : Bool

/-- Embeds `load_home_page_data`.  In the then branch the six wrappers run
in order and an exception aborts the function immediately (no close); after
the if statement the connection is closed when truthy; the return statement
raises an unbound-local error when the then branch did not run. -/
def load_home_page_data (env : HomeEnv) : HomeRun :=
  match env.newest_crawl_date with
  | none =>
    { result := Except.error PyError.unboundLocal
      fetches_called := []
      closed := env.connection }
  | some _ =>
    match env.stats_res with
    | Except.error m =>
      { result := Except.error (PyError.raised m)
        fetches_called := ["openings_statistics"]
        closed := false }
    | Except.ok openings_statistics =>
      match env.hist_res with
      | Except.error m =>
        { result := Except.error (PyError.raised m)
          fetches_called := ["openings_statistics", "historical_total_openings"]
          closed := false }
      | Except.ok historical_total_openings =>
        match env.role_res with
        | Except.error m =>
          { result := Except.error (PyError.raised m)
            fetches_called := ["openings_statistics", "historical_total_openings", "data_role"]
            closed := false }
        | Except.ok data_role =>
          match env.tools_res with
          | Except.error m =>
            { result := Except.error (PyError.raised m)
              fetches_called := ["openings_statistics", "historical_total_openings", "data_role", "data_tools"]
              closed := false }
          | Except.ok data_tools =>
            match env.company_res with
            | Except.error m =>
              { result := Except.error (PyError.raised m)
                fetches_called := ["openings_statistics", "historical_total_openings", "data_role", "data_tools", "openings_company"]
                closed := false }
            | Except.ok openings_company =>
              match env.taipei_res with
              | Except.error m =>
                { result := Except.error (PyError.raised m)
                  fetches_called := ["openings_statistics", "historical_total_openings", "data_role", "data_tools", "openings_company", "taiepi_area_openings"]
                  closed := false }
              | Except.ok taiepi_area_openings =>
                { result := Except.ok (openings_statistics, historical_total_openings,
                    data_role, data_tools, openings_company, taiepi_area_openings)
                  fetches_called := ["openings_statistics", "historical_total_openings", "data_role", "data_tools", "openings_company", "taiepi_area_openings"]
                  closed := env.connection }

/-- The per-tool totals used by the line-chart top-10 selection: group the
(tool, marker)-grouped data again by tool and sum (this is the series
`grouped_data.groupby('tool_name')['count'].sum()` whose `nlargest(10)`
picks the kept tools). -/
def line_tool_totals (rows : List ToolRoleRow) (dr cat : String) : List (String × Int) :=
  groupSum (fun g => g.1.1) (fun g => g.2)
    (groupSum (fun r => (r.tool_name, r.crawl_date)) (fun r => r.count) (wildcardFilter rows dr cat))

/-- The per-tool totals used by the bar-chart top-5 selection. -/
def bar_tool_totals (rows : List ToolRoleRow) (dr cat : String) : List (String × Int) :=
  groupSum (fun r => r.tool_name) (fun r => r.count) (wildcardFilter rows dr cat)

/-!
Concrete fixtures used by the witness theorems below.
-/

/-- A page-load environment whose first fetch wrapper raises. -/
def envFetchRaises : HomeEnv :=
  { newest_crawl_date := some 10
    stats_res := Except.error "to_datetime parse failure"
    hist_res := Except.ok []
    role_res := Except.ok []
    tools_res := Except.ok []
    company_res := Except.ok []
    taipei_res := Except.ok []
    connection := true }

/-- A page-load environment in which every fetch wrapper succeeds. -/
def envAllOk : HomeEnv :=
  { newest_crawl_date := some 10
    stats_res := Except.ok [1]
    hist_res := Except.ok [2]
    role_res := Except.ok [3]
    tools_res := Except.ok [4]
    company_res := Except.ok [5]
    taipei_res := Except.ok [6]
    connection := true }

/-- A page-load environment in which marker resolution yielded the
no-marker sentinel. -/
def envNoMarker : HomeEnv :=
  { newest_crawl_date := none
    stats_res := Except.ok []
    hist_res := Except.ok []
    role_res := Except.ok []
    tools_res := Except.ok []
    company_res := Except.ok []
    taipei_res := Except.ok []
    connection := true }

/-- A metrics table with 15 rows carrying pairwise-distinct markers
(the spec's historical-series test scenario). -/
def table15 : List MetricsRow :=
  [⟨100, 1⟩, ⟨101, 2⟩, ⟨102, 3⟩, ⟨103, 4⟩, ⟨104, 5⟩,
   ⟨105, 6⟩, ⟨106, 7⟩, ⟨107, 8⟩, ⟨108, 9⟩, ⟨109, 10⟩,
   ⟨110, 11⟩, ⟨111, 12⟩, ⟨112, 13⟩, ⟨113, 14⟩, ⟨114, 15⟩]

/-- A tool-by-role series with 12 tools of pairwise-distinct total counts
(the spec's tool-trend top-K test scenario). -/
def rows12 : List ToolRoleRow :=
  [⟨"r", "c", "a", 10, 1⟩, ⟨"r", "c", "b", 20, 1⟩, ⟨"r", "c", "d", 30, 1⟩,
   ⟨"r", "c", "e", 40, 1⟩, ⟨"r", "c", "f", 50, 1⟩, ⟨"r", "c", "g", 60, 1⟩,
   ⟨"r", "c", "h", 70, 1⟩, ⟨"r", "c", "i", 80, 1⟩, ⟨"r", "c", "j", 90, 1⟩,
   ⟨"r", "c", "k", 100, 1⟩, ⟨"r", "c", "l", 110, 1⟩, ⟨"r", "c", "m", 120, 1⟩]

/-- The characters of the company name Acme_Corp. -/
def nameAcme : List Char := ['A', 'c', 'm', 'e', '_', 'C', 'o', 'r', 'p']

/-- The characters of the company name Foo (Bar Inc), split around the
parenthesized group. -/
def namePreFoo : List Char := ['F', 'o', 'o', ' ']

/-- The parenthesized group Bar Inc. -/
def nameMidBar : List Char := ['B', 'a', 'r', ' ', 'I', 'n', 'c']

/-- The characters of the company name PlainName. -/
def namePlain : List Char := ['P', 'l', 'a', 'i', 'n', 'N', 'a', 'm', 'e']

/-- A fetched DataFrame holding one consistent row (day 3) and one row with
a mismatched marker (day 4). -/
def dataMismatch : List DRow := [⟨1, ⟨3, 0⟩⟩, ⟨2, ⟨4, 0⟩⟩]

/-- A fetched DataFrame whose single row carries a full timestamp (nonzero
time of day) on the same calendar day as the requested marker. -/
def dataSameDayStamp : List DRow := [⟨1, ⟨3, 5⟩⟩]

/-- The requested crawl date (calendar day 3) used by the wrapper
witnesses. -/
def day3 : DateTimeVal := ⟨3, 0⟩

/-!
General lemmas about the sorting, counting and grouping combinators.
-/

theorem insertDescBy_perm {α : Type} (f : α → Int) (a : α) (l : List α) :
    (insertDescBy f a l).Perm (a :: l) := by
  induction l with
  | nil => exact List.Perm.refl _
  | cons b bs ih =>
    unfold insertDescBy
    by_cases h : f b < f a
    · rw [if_pos h]
    · rw [if_neg h]
      exact (ih.cons b).trans (List.Perm.swap a b bs)

theorem sortDescBy_perm {α : Type} (f : α → Int) (l : List α) :
    (sortDescBy f l).Perm l := by
  induction l with
  | nil => exact List.Perm.refl _
  | cons a as ih => exact (insertDescBy_perm f a (sortDescBy f as)).trans (ih.cons a)

theorem insertDescBy_sorted {α : Type} (f : α → Int) (a : α) (l : List α)
    (h : l.Pairwise (fun x y => f y ≤ f x)) :
    (insertDescBy f a l).Pairwise (fun x y => f y ≤ f x) := by
  induction l with
  | nil => simp [insertDescBy]
  | cons b bs ih =>
    rcases List.pairwise_cons.mp h with ⟨hb, hbs⟩
    unfold insertDescBy
    by_cases hlt : f b < f a
    · rw [if_pos hlt]
      refine List.pairwise_cons.mpr ⟨?_, h⟩
      intro y hy
      cases hy with
      | head => exact le_of_lt hlt
      | tail _ hy2 => exact le_trans (hb y hy2) (le_of_lt hlt)
    · rw [if_neg hlt]
      refine List.pairwise_cons.mpr ⟨?_, ih hbs⟩
      intro y hy
      have hmem : y ∈ a :: bs := (insertDescBy_perm f a bs).mem_iff.mp hy
      cases hmem with
      | head => exact not_lt.mp hlt
      | tail _ h2 => exact hb y h2

theorem sortDescBy_sorted {α : Type} (f : α → Int) (l : List α) :
    (sortDescBy f l).Pairwise (fun x y => f y ≤ f x) := by
  induction l with
  | nil => simp [sortDescBy]
  | cons a as ih => exact insertDescBy_sorted f a _ ih

theorem insertAscBy_perm {α : Type} (f : α → Int) (a : α) (l : List α) :
    (insertAscBy f a l).Perm (a :: l) := by
  induction l with
  | nil => exact List.Perm.refl _
  | cons b bs ih =>
    unfold insertAscBy
    by_cases h : f a < f b
    · rw [if_pos h]
    · rw [if_neg h]
      exact (ih.cons b).trans (List.Perm.swap a b bs)

theorem sortAscBy_perm {α : Type} (f : α → Int) (l : List α) :
    (sortAscBy f l).Perm l := by
  induction l with
  | nil => exact List.Perm.refl _
  | cons a as ih => exact (insertAscBy_perm f a (sortAscBy f as)).trans (ih.cons a)

theorem insertAscBy_sorted {α : Type} (f : α → Int) (a : α) (l : List α)
    (h : l.Pairwise (fun x y => f x ≤ f y)) :
    (insertAscBy f a l).Pairwise (fun x y => f x ≤ f y) := by
  induction l with
  | nil => simp [insertAscBy]
  | cons b bs ih =>
    rcases List.pairwise_cons.mp h with ⟨hb, hbs⟩
    unfold insertAscBy
    by_cases hlt : f a < f b
    · rw [if_pos hlt]
      refine List.pairwise_cons.mpr ⟨?_, h⟩
      intro y hy
      cases hy with
      | head => exact le_of_lt hlt
      | tail _ hy2 => exact le_trans (le_of_lt hlt) (hb y hy2)
    · rw [if_neg hlt]
      refine List.pairwise_cons.mpr ⟨?_, ih hbs⟩
      intro y hy
      have hmem : y ∈ a :: bs := (insertAscBy_perm f a bs).mem_iff.mp hy
      cases hmem with
      | head => exact not_lt.mp hlt
      | tail _ h2 => exact hb y h2

theorem sortAscBy_sorted {α : Type} (f : α → Int) (l : List α) :
    (sortAscBy f l).Pairwise (fun x y => f x ≤ f y) := by
  induction l with
  | nil => simp [sortAscBy]
  | cons a as ih => exact insertAscBy_sorted f a _ ih

/-- Membership in the first k elements of a descending-sorted list with
pairwise-distinct keys is exactly having fewer than k strictly-larger keys. -/
theorem mem_take_sorted_iff {α : Type} (f : α → Int) (l : List α)
    (hs : l.Pairwise (fun x y => f y ≤ f x))
    (hd : l.Pairwise (fun x y => f x ≠ f y)) (k : ℕ) (x : α) :
    x ∈ l.take k ↔ x ∈ l ∧ l.countP (fun y => decide (f x < f y)) < k := by
  induction l generalizing k with
  | nil => simp
  | cons a as ih =>
    rcases List.pairwise_cons.mp hs with ⟨ha, has⟩
    rcases List.pairwise_cons.mp hd with ⟨hda, hdas⟩
    cases k with
    | zero => simp
    | succ n =>
      rw [List.take_succ_cons]
      by_cases hxa : x = a
      · subst hxa
        constructor
        · intro _
          refine ⟨List.mem_cons_self x as, ?_⟩
          have hcount : (x :: as).countP (fun y => decide (f x < f y)) = 0 := by
            rw [List.countP_eq_zero]
            intro y hy
            cases hy with
            | head => simp
            | tail _ hy2 => simp [not_lt.mpr (ha y hy2)]
          rw [hcount]
          exact Nat.succ_pos n
        · intro _
          exact List.mem_cons_self x (as.take n)
      · have hcons : ∀ hxas : x ∈ as, f x < f a :=
          fun hxas => lt_of_le_of_ne (ha x hxas) (Ne.symm (hda x hxas))
        constructor
        · intro hmem
          cases hmem with
          | head => exact absurd rfl hxa
          | tail _ hmem2 =>
            obtain ⟨hxas, hcnt⟩ := (ih has hdas n).mp hmem2
            refine ⟨List.mem_cons_of_mem a hxas, ?_⟩
            have hpa : (decide (f x < f a)) = true := decide_eq_true (hcons hxas)
            rw [List.countP_cons, hpa]
            simp only [if_true]
            omega
        · rintro ⟨hmem, hcnt⟩
          cases hmem with
          | head => exact absurd rfl hxa
          | tail _ hxas =>
            apply List.mem_cons_of_mem
            apply (ih has hdas n).mpr
            refine ⟨hxas, ?_⟩
            have hpa : (decide (f x < f a)) = true := decide_eq_true (hcons hxas)
            rw [List.countP_cons, hpa] at hcnt
            simp only [if_true] at hcnt
            omega

/-- Membership in the k largest pairs of a totals list with
pairwise-distinct values. -/
theorem mem_take_sortDesc_pairs {κ : Type} (totals : List (κ × Int))
    (hdist : totals.Pairwise (fun a b => a.2 ≠ b.2)) (k : ℕ) (p : κ × Int) :
    p ∈ (sortDescBy (fun q => q.2) totals).take k ↔
      p ∈ totals ∧ totals.countP (fun q => decide (p.2 < q.2)) < k := by
  have hperm := sortDescBy_perm (fun q : κ × Int => q.2) totals
  have hsort := sortDescBy_sorted (fun q : κ × Int => q.2) totals
  have hdist2 : (sortDescBy (fun q : κ × Int => q.2) totals).Pairwise
      (fun a b => a.2 ≠ b.2) := hdist.perm hperm.symm (fun h => Ne.symm h)
  rw [mem_take_sorted_iff (fun q => q.2) _ hsort hdist2 k p]
  rw [hperm.mem_iff, hperm.countP_eq]

/-- A key appears among the grouped sums exactly when some input row
carries it. -/
theorem groupSum_keys {α κ : Type} [DecidableEq κ] (key : α → κ) (val : α → Int)
    (xs : List α) (k : κ) :
    (∃ c, (k, c) ∈ groupSum key val xs) ↔ ∃ x ∈ xs, key x = k := by
  unfold groupSum
  constructor
  · rintro ⟨c, hc⟩
    rw [List.mem_map] at hc
    obtain ⟨k2, hk2, he⟩ := hc
    have hk : k2 = k := congrArg Prod.fst he
    subst hk
    have hmem : k2 ∈ xs.map key := List.mem_dedup.mp hk2
    rw [List.mem_map] at hmem
    obtain ⟨x, hx, hxk⟩ := hmem
    exact ⟨x, hx, hxk⟩
  · rintro ⟨x, hx, rfl⟩
    refine ⟨((xs.filter (fun x2 => decide (key x2 = key x))).map val).sum, ?_⟩
    rw [List.mem_map]
    exact ⟨key x, List.mem_dedup.mpr (List.mem_map.mpr ⟨x, hx, rfl⟩), rfl⟩

/-- The maximum-fold over integers: membership and upper-bound facts. -/
theorem foldl_max_spec (l : List Int) :
    ∀ a : Int, (l.foldl max a ∈ a :: l) ∧ a ≤ l.foldl max a ∧
      ∀ x ∈ l, x ≤ l.foldl max a := by
  induction l with
  | nil =>
    intro a
    exact ⟨List.mem_cons_self a [], le_refl a, by simp⟩
  | cons b bs ih =>
    intro a
    obtain ⟨hmem, hle, hall⟩ := ih (max a b)
    refine ⟨?_, le_trans (le_max_left a b) hle, ?_⟩
    · rw [List.foldl_cons]
      rcases List.mem_cons.mp hmem with h | h
      · rw [h]
        rcases max_choice a b with h2 | h2 <;> rw [h2]
        · exact List.mem_cons_self _ _
        · exact List.mem_cons_of_mem a (List.mem_cons_self _ _)
      · exact List.mem_cons_of_mem a (List.mem_cons_of_mem b h)
    · intro x hx
      rw [List.foldl_cons]
      cases hx with
      | head => exact le_trans (le_max_right a b) hle
      | tail _ h2 => exact hall x h2

/-- C3: every period-over-period change percentage computed by the
openings-statistics fetch equals (current - previous) / previous * 100 when
the previous value is present and non-zero, and equals 0 (not an error, not
infinity) when the previous value is zero or absent; previous = 50 with
current = 75 gives 50.  The tool-ranking percentage of the data-tool fetch
likewise equals tool_count / total * 100 when the total is present and
non-zero, and 0 when the total is zero or absent. -/
theorem change_pct_spec (cur p c t : ℚ) :
    (p ≠ 0 → change_pct cur (some p) = (cur - p) / p * 100)
    ∧ change_pct cur (some 0) = 0
    ∧ change_pct cur none = 0
    ∧ change_pct 75 (some 50) = 50
    ∧ (t ≠ 0 → percentage_of_tool c (some t) = c / t * 100)
    ∧ percentage_of_tool c (some 0) = 0
    ∧ percentage_of_tool c none = 0 := by
  refine ⟨?_, ?_, ?_, ?_, ?_, ?_, ?_⟩
  · intro hp
    simp [change_pct, coalesce, sql_mul, sql_div, sql_sub, nullif_zero, hp]
  · simp [change_pct, coalesce, sql_mul, sql_div, sql_sub, nullif_zero]
  · simp [change_pct, coalesce, sql_mul, sql_div, sql_sub, nullif_zero]
  · norm_num [change_pct, coalesce, sql_mul, sql_div, sql_sub, nullif_zero]
  · intro ht
    simp [percentage_of_tool, coalesce, sql_mul, sql_div, nullif_zero, ht]
  · simp [percentage_of_tool, coalesce, sql_mul, sql_div, nullif_zero]
  · simp [percentage_of_tool, coalesce, sql_mul, sql_div, nullif_zero]

/-- Witness for C3 at previous = 50, current = 75 and a tool ratio 2 of 8. -/
theorem change_pct_spec_witness :
    (50 : ℚ) ≠ 0 ∧ (8 : ℚ) ≠ 0
    ∧ change_pct 75 (some 50) = (75 - 50) / 50 * 100
    ∧ percentage_of_tool 2 (some 8) = 2 / 8 * 100 := by
  have h := change_pct_spec 75 50 2 8
  exact ⟨by norm_num, by norm_num, h.1 (by norm_num), h.2.2.2.2.1 (by norm_num)⟩

/-- C6: every metric fetcher on the FetchReportData surface returns a
DataFrame (never Python None); a query yielding zero rows and a failing
query (caught inside execute_query) both yield the empty DataFrame, and a
log entry is emitted. -/
theorem fetchers_collapse_to_empty (ρ : Type) (backend : Except String (List ρ))
    (cbackend : Except String (List CompanyRow)) :
    ((∃ rows, (fetch_openings_statistics_metrics backend).ret = some rows)
      ∧ (fetch_openings_statistics_metrics backend).logged = true
      ∧ ((backend = Except.ok [] ∨ ∃ m, backend = Except.error m) →
          (fetch_openings_statistics_metrics backend).ret = some []))
    ∧ ((∃ rows, (fetch_openings_history backend).ret = some rows)
      ∧ (fetch_openings_history backend).logged = true
      ∧ ((backend = Except.ok [] ∨ ∃ m, backend = Except.error m) →
          (fetch_openings_history backend).ret = some []))
    ∧ ((∃ rows, (fetch_data_role backend).ret = some rows)
      ∧ (fetch_data_role backend).logged = true
      ∧ ((backend = Except.ok [] ∨ ∃ m, backend = Except.error m) →
          (fetch_data_role backend).ret = some []))
    ∧ ((∃ rows, (fetch_data_tool backend).ret = some rows)
      ∧ (fetch_data_tool backend).logged = true
      ∧ ((backend = Except.ok [] ∨ ∃ m, backend = Except.error m) →
          (fetch_data_tool backend).ret = some []))
    ∧ ((∃ rows, (fetch_taiepi_area_openings backend).ret = some rows)
      ∧ (fetch_taiepi_area_openings backend).logged = true
      ∧ ((backend = Except.ok [] ∨ ∃ m, backend = Except.error m) →
          (fetch_taiepi_area_openings backend).ret = some []))
    ∧ ((∃ rows, (fetch_tool_by_data_role backend).ret = some rows)
      ∧ (fetch_tool_by_data_role backend).logged = true
      ∧ ((backend = Except.ok [] ∨ ∃ m, backend = Except.error m) →
          (fetch_tool_by_data_role backend).ret = some []))
    ∧ ((∃ rows, (fetch_tool_trends backend).ret = some rows)
      ∧ (fetch_tool_trends backend).logged = true
      ∧ ((backend = Except.ok [] ∨ ∃ m, backend = Except.error m) →
          (fetch_tool_trends backend).ret = some []))
    ∧ ((∃ rows, (fetch_openings_company cbackend).ret = some rows)
      ∧ (fetch_openings_company cbackend).logged = true
      ∧ ((cbackend = Except.ok [] ∨ ∃ m, cbackend = Except.error m) →
          (fetch_openings_company cbackend).ret = some [])) := by
  refine ⟨?_, ?_, ?_, ?_, ?_, ?_, ?_, ?_⟩
  case _ =>
    cases backend with
    | error m => exact ⟨⟨[], rfl⟩, rfl, fun _ => rfl⟩
    | ok rows =>
      cases rows with
      | nil => exact ⟨⟨[], rfl⟩, rfl, fun _ => rfl⟩
      | cons r rs =>
        refine ⟨⟨r :: rs, rfl⟩, rfl, fun h => ?_⟩
        rcases h with h | ⟨m, h⟩ <;> simp at h
  case _ =>
    cases backend with
    | error m => exact ⟨⟨[], rfl⟩, rfl, fun _ => rfl⟩
    | ok rows =>
      cases rows with
      | nil => exact ⟨⟨[], rfl⟩, rfl, fun _ => rfl⟩
      | cons r rs =>
        refine ⟨⟨r :: rs, rfl⟩, rfl, fun h => ?_⟩
        rcases h with h | ⟨m, h⟩ <;> simp at h
  case _ =>
    cases backend with
    | error m => exact ⟨⟨[], rfl⟩, rfl, fun _ => rfl⟩
    | ok rows =>
      cases rows with
      | nil => exact ⟨⟨[], rfl⟩, rfl, fun _ => rfl⟩
      | cons r rs =>
        refine ⟨⟨r :: rs, rfl⟩, rfl, fun h => ?_⟩
        rcases h with h | ⟨m, h⟩ <;> simp at h
  case _ =>
    cases backend with
    | error m => exact ⟨⟨[], rfl⟩, rfl, fun _ => rfl⟩
    | ok rows =>
      cases rows with
      | nil => exact ⟨⟨[], rfl⟩, rfl, fun _ => rfl⟩
      | cons r rs =>
        refine ⟨⟨r :: rs, rfl⟩, rfl, fun h => ?_⟩
        rcases h with h | ⟨m, h⟩ <;> simp at h
  case _ =>
    cases backend with
    | error m => exact ⟨⟨[], rfl⟩, rfl, fun _ => rfl⟩
    | ok rows =>
      cases rows with
      | nil => exact ⟨⟨[], rfl⟩, rfl, fun _ => rfl⟩
      | cons r rs =>
        refine ⟨⟨r :: rs, rfl⟩, rfl, fun h => ?_⟩
        rcases h with h | ⟨m, h⟩ <;> simp at h
  case _ =>
    cases backend with
    | error m => exact ⟨⟨[], rfl⟩, rfl, fun _ => rfl⟩
    | ok rows =>
      cases rows with
      | nil => exact ⟨⟨[], rfl⟩, rfl, fun _ => rfl⟩
      | cons r rs =>
        refine ⟨⟨r :: rs, rfl⟩, rfl, fun h => ?_⟩
        rcases h with h | ⟨m, h⟩ <;> simp at h
  case _ =>
    cases backend with
    | error m => exact ⟨⟨[], rfl⟩, rfl, fun _ => rfl⟩
    | ok rows =>
      cases rows with
      | nil => exact ⟨⟨[], rfl⟩, rfl, fun _ => rfl⟩
      | cons r rs =>
        refine ⟨⟨r :: rs, rfl⟩, rfl, fun h => ?_⟩
        rcases h with h | ⟨m, h⟩ <;> simp at h
  case _ =>
    cases cbackend with
    | error m => exact ⟨⟨[], rfl⟩, rfl, fun _ => rfl⟩
    | ok rows =>
      cases rows with
      | nil => exact ⟨⟨[], rfl⟩, rfl, fun _ => rfl⟩
      | cons r rs =>
        cases hm : (r :: rs).mapM
            (fun row => (adjust_company_name row.company_name).map
              (fun n => { row with company_name := n })) with
        | none =>
          refine ⟨⟨[], ?_⟩, ?_, fun _ => ?_⟩ <;>
            · dsimp only [fetch_openings_company, execute_query]
              rw [hm]
        | some adjusted =>
          refine ⟨⟨adjusted, ?_⟩, ?_, fun h => ?_⟩
          · dsimp only [fetch_openings_company, execute_query]
            rw [hm]
          · dsimp only [fetch_openings_company, execute_query]
            rw [hm]
          · rcases h with h | ⟨m, h⟩ <;> simp at h

/-- Witness for C6 at a failing query. -/
theorem fetchers_collapse_to_empty_witness :
    ((Except.error "backend down" : Except String (List Nat)) = Except.ok []
      ∨ ∃ m, (Except.error "backend down" : Except String (List Nat)) = Except.error m)
    ∧ (fetch_openings_statistics_metrics
        (Except.error "backend down" : Except String (List Nat))).ret = some [] := by
  have h := fetchers_collapse_to_empty Nat (Except.error "backend down")
    (Except.error "backend down")
  exact ⟨Or.inr ⟨"backend down", rfl⟩, h.1.2.2 (Or.inr ⟨"backend down", rfl⟩)⟩

/-- C10 (implicit): when marker resolution yields the no-marker sentinel,
load_home_page_data performs none of the metric fetches and closes the
connection, but its return statement references locals that were never
assigned, so the run ends in an unbound-local error instead of returning a
tuple of empty results. -/
theorem load_home_no_marker_unbound_local (env : HomeEnv)
    (h : env.newest_crawl_date = none) :
    (load_home_page_data env).fetches_called = []
    ∧ (env.connection = true → (load_home_page_data env).closed = true)
    ∧ (load_home_page_data env).result = Except.error PyError.unboundLocal := by
  unfold load_home_page_data
  rw [h]
  exact ⟨rfl, fun hc => hc, rfl⟩

/-- Witness for C10 at a concrete no-marker environment. -/
theorem load_home_no_marker_unbound_local_witness :
    envNoMarker.newest_crawl_date = none
    ∧ (load_home_page_data envNoMarker).result = Except.error PyError.unboundLocal := by
  exact ⟨rfl, (load_home_no_marker_unbound_local envNoMarker rfl).2.2⟩

/-- C7: snapshot-marker resolution returns the maximum crawl date of the
metrics table when one exists and the no-marker sentinel when the table is
empty (also on query failure), without throwing; and when the sentinel is
returned, the page-load function performs none of the downstream metric
fetches. -/
theorem get_newest_crawl_date_spec (table : List Int) (e : String) (env : HomeEnv)
    (hne : table ≠ []) (hsentinel : env.newest_crawl_date = none) :
    (∃ m, get_newest_crawl_date (Except.ok (sql_max_crawl_date table)) = some m
      ∧ m ∈ table ∧ ∀ x ∈ table, x ≤ m)
    ∧ get_newest_crawl_date (Except.ok (sql_max_crawl_date [])) = none
    ∧ get_newest_crawl_date (Except.error e) = none
    ∧ (load_home_page_data env).fetches_called = [] := by
  refine ⟨?_, rfl, rfl, ?_⟩
  · cases table with
    | nil => exact absurd rfl hne
    | cons t ts =>
      obtain ⟨hmem, hle, hall⟩ := foldl_max_spec ts t
      refine ⟨ts.foldl max t, rfl, hmem, ?_⟩
      intro x hx
      cases hx with
      | head => exact hle
      | tail _ h2 => exact hall x h2
  · unfold load_home_page_data
    rw [hsentinel]

/-- Witness for C7 at a three-row table and a no-marker environment. -/
theorem get_newest_crawl_date_spec_witness :
    ([3, 9, 1] : List Int) ≠ [] ∧ envNoMarker.newest_crawl_date = none
    ∧ (∃ m, get_newest_crawl_date (Except.ok (sql_max_crawl_date [3, 9, 1])) = some m
        ∧ m ∈ ([3, 9, 1] : List Int) ∧ ∀ x ∈ ([3, 9, 1] : List Int), x ≤ m)
    ∧ get_newest_crawl_date (Except.error "backend down") = none := by
  have h := get_newest_crawl_date_spec [3, 9, 1] "backend down" envNoMarker
    (by decide) rfl
  exact ⟨by decide, rfl, h.1, h.2.2.1⟩

/-- C9 counterexample: in the run in which the first metric fetch raises,
the connection opened at the start is never closed (the function body has no
try/finally), so a dangling connection remains. -/
theorem load_home_close_skipped_cex :
    envFetchRaises.connection = true
    ∧ (load_home_page_data envFetchRaises).closed = false := by
  exact ⟨rfl, rfl⟩

/-- C9 amended: the connection is closed in every run of the page-load
function in which no metric fetch raises - that is, when the marker is the
sentinel (all fetches skipped) or all six fetch wrappers return normally;
when a fetch wrapper raises, the close is skipped and the connection leaks. -/
theorem load_home_close_amended (env : HomeEnv) (hc : env.connection = true)
    (h : env.newest_crawl_date = none
      ∨ ((∃ a, env.stats_res = Except.ok a) ∧ (∃ a, env.hist_res = Except.ok a)
        ∧ (∃ a, env.role_res = Except.ok a) ∧ (∃ a, env.tools_res = Except.ok a)
        ∧ (∃ a, env.company_res = Except.ok a) ∧ (∃ a, env.taipei_res = Except.ok a))) :
    (load_home_page_data env).closed = true := by
  rcases h with h | h
  · unfold load_home_page_data
    rw [h]
    exact hc
  · obtain ⟨⟨a1, h1⟩, ⟨a2, h2⟩, ⟨a3, h3⟩, ⟨a4, h4⟩, ⟨a5, h5⟩, ⟨a6, h6⟩⟩ := h
    cases hn : env.newest_crawl_date with
    | none =>
      unfold load_home_page_data
      rw [hn]
      exact hc
    | some d =>
      unfold load_home_page_data
      rw [hn, h1, h2, h3, h4, h5, h6]
      exact hc

/-- Witness for the amended C9 at an all-successful environment. -/
theorem load_home_close_amended_witness :
    envAllOk.connection = true
    ∧ (load_home_page_data envAllOk).closed = true := by
  refine ⟨rfl, load_home_close_amended envAllOk rfl (Or.inr ?_)⟩
  exact ⟨⟨[1], rfl⟩, ⟨[2], rfl⟩, ⟨[3], rfl⟩, ⟨[4], rfl⟩, ⟨[5], rfl⟩, ⟨[6], rfl⟩⟩

/-- When some row's calendar day differs from the requested date, the raw
(uncoerced) whole-column equality check of the statistics wrapper fails. -/
theorem all_raw_eq_false (data : List DRow) (cd : DateTimeVal)
    (hmis : ∃ r ∈ data, r.crawl_date.day ≠ cd.day) :
    data.all (fun r => r.crawl_date == cd) = false := by
  obtain ⟨r0, hr0, hd0⟩ := hmis
  apply Bool.eq_false_iff.mpr
  intro hall
  rw [List.all_eq_true] at hall
  have h := hall r0 hr0
  rw [beq_iff_eq] at h
  exact hd0 (congrArg DateTimeVal.day h)

/-- When some row's calendar day differs from the requested date, the
coerced whole-column equality check of the normalizing wrappers fails. -/
theorem all_norm_eq_false (data : List DRow) (cd : DateTimeVal)
    (hmis : ∃ r ∈ data, r.crawl_date.day ≠ cd.day) :
    (data.map (fun r => { r with crawl_date := toDateOnly r.crawl_date })).all
      (fun r => r.crawl_date == toDateOnly cd) = false := by
  obtain ⟨r0, hr0, hd0⟩ := hmis
  apply Bool.eq_false_iff.mpr
  intro hall
  rw [List.all_eq_true] at hall
  have hmem : ({ r0 with crawl_date := toDateOnly r0.crawl_date } : DRow)
      ∈ data.map (fun r => { r with crawl_date := toDateOnly r.crawl_date }) :=
    List.mem_map.mpr ⟨r0, hr0, rfl⟩
  have h := hall _ hmem
  rw [beq_iff_eq] at h
  have h2 := congrArg DateTimeVal.day h
  simp only [toDateOnly] at h2
  exact hd0 h2

/-- When every row's calendar day agrees with the requested date, the
coerced whole-column equality check of the normalizing wrappers passes. -/
theorem all_norm_eq_true (data : List DRow) (cd : DateTimeVal)
    (hday : ∀ r ∈ data, r.crawl_date.day = cd.day) :
    (data.map (fun r => { r with crawl_date := toDateOnly r.crawl_date })).all
      (fun r => r.crawl_date == toDateOnly cd) = true := by
  rw [List.all_eq_true]
  intro r hr
  rw [List.mem_map] at hr
  obtain ⟨r0, hr0, rfl⟩ := hr
  rw [beq_iff_eq]
  exact congrArg (fun d => DateTimeVal.mk d 0) (hday r0 hr0)

/-- Every row of the coerced consistent subset carries the requested
calendar day. -/
theorem mem_filter_norm_day (data : List DRow) (cd : DateTimeVal) :
    ∀ r ∈ (data.map (fun r => { r with crawl_date := toDateOnly r.crawl_date })).filter
        (fun r => r.crawl_date == toDateOnly cd), r.crawl_date.day = cd.day := by
  intro r hr
  have h := (List.mem_filter.mp hr).2
  rw [beq_iff_eq] at h
  rw [h]
  rfl

/-- The coerced consistent subset carries the payloads of exactly the input
rows whose calendar day matches the requested date. -/
theorem filter_norm_payloads (data : List DRow) (cd : DateTimeVal) :
    ((data.map (fun r => { r with crawl_date := toDateOnly r.crawl_date })).filter
        (fun r => r.crawl_date == toDateOnly cd)).map (fun r => r.payload)
    = (data.filter (fun r => decide (r.crawl_date.day = cd.day))).map (fun r => r.payload) := by
  induction data with
  | nil => rfl
  | cons a as ih =>
    by_cases h : a.crawl_date.day = cd.day
    · have hb : (({ a with crawl_date := toDateOnly a.crawl_date } : DRow).crawl_date
          == toDateOnly cd) = true := by
        rw [beq_iff_eq]
        exact congrArg (fun d => DateTimeVal.mk d 0) h
      simp only [List.map_cons, List.filter_cons, hb, decide_eq_true h, if_true,
        List.map_cons]
      exact congrArg (fun l => a.payload :: l) ih
    · have hb : (({ a with crawl_date := toDateOnly a.crawl_date } : DRow).crawl_date
          == toDateOnly cd) = false := by
        apply Bool.eq_false_iff.mpr
        intro hq
        rw [beq_iff_eq] at hq
        have h2 := congrArg DateTimeVal.day hq
        simp only [toDateOnly] at h2
        exact h h2
      simp only [List.map_cons, List.filter_cons, hb, decide_eq_false h, if_false]
      exact ih

/-- C1: for every marker-comparing dashboard fetch wrapper, when the
fetched result is non-empty and contains a row whose crawl date (at
calendar granularity) differs from the requested date, the wrapper logs an
inconsistency and returns either the empty DataFrame or only rows carrying
the requested calendar day (for the filtering wrappers, exactly the
payloads of the consistent subset); being total Lean functions, the
embedded wrappers never raise. -/
theorem wrappers_reject_mismatched_rows (data : List DRow) (cd : DateTimeVal)
    (hne : data ≠ []) (hmis : ∃ r ∈ data, r.crawl_date.day ≠ cd.day) :
    ((fetch_openings_statistics_for_dashboard data cd).2 = true
      ∧ (∀ r ∈ (fetch_openings_statistics_for_dashboard data cd).1, r.crawl_date.day = cd.day)
      ∧ (fetch_openings_statistics_for_dashboard data cd).1 = [])
    ∧ ((fetch_data_role_for_dashboard data cd).2 = true
      ∧ (∀ r ∈ (fetch_data_role_for_dashboard data cd).1, r.crawl_date.day = cd.day)
      ∧ (fetch_data_role_for_dashboard data cd).1 = [])
    ∧ ((fetch_data_tools_for_dashboard data cd).2 = true
      ∧ (∀ r ∈ (fetch_data_tools_for_dashboard data cd).1, r.crawl_date.day = cd.day)
      ∧ ((fetch_data_tools_for_dashboard data cd).1 = []
        ∨ (fetch_data_tools_for_dashboard data cd).1.map (fun r => r.payload)
          = (data.filter (fun r => decide (r.crawl_date.day = cd.day))).map (fun r => r.payload)))
    ∧ ((fetch_openings_company_for_dashboard data cd).2 = true
      ∧ (∀ r ∈ (fetch_openings_company_for_dashboard data cd).1, r.crawl_date.day = cd.day)
      ∧ ((fetch_openings_company_for_dashboard data cd).1 = []
        ∨ (fetch_openings_company_for_dashboard data cd).1.map (fun r => r.payload)
          = (data.filter (fun r => decide (r.crawl_date.day = cd.day))).map (fun r => r.payload)))
    ∧ ((fetch_taiepi_area_openings_for_dashboard data cd).2 = true
      ∧ (∀ r ∈ (fetch_taiepi_area_openings_for_dashboard data cd).1, r.crawl_date.day = cd.day)
      ∧ ((fetch_taiepi_area_openings_for_dashboard data cd).1 = []
        ∨ (fetch_taiepi_area_openings_for_dashboard data cd).1.map (fun r => r.payload)
          = (data.filter (fun r => decide (r.crawl_date.day = cd.day))).map (fun r => r.payload))) := by
  have hE : data.isEmpty = false := by
    cases data with
    | nil => exact absurd rfl hne
    | cons a as => rfl
  have hrawF := all_raw_eq_false data cd hmis
  have hnormF := all_norm_eq_false data cd hmis
  have hstats : fetch_openings_statistics_for_dashboard data cd = ([], true) := by
    simp [fetch_openings_statistics_for_dashboard, hE, hrawF]
  have hrole : fetch_data_role_for_dashboard data cd = ([], true) := by
    simp [fetch_data_role_for_dashboard, hE, hnormF]
  have htoolsP : (fetch_data_tools_for_dashboard data cd).2 = true
      ∧ (∀ r ∈ (fetch_data_tools_for_dashboard data cd).1, r.crawl_date.day = cd.day)
      ∧ ((fetch_data_tools_for_dashboard data cd).1 = []
        ∨ (fetch_data_tools_for_dashboard data cd).1.map (fun r => r.payload)
          = (data.filter (fun r => decide (r.crawl_date.day = cd.day))).map (fun r => r.payload)) := by
    by_cases hc : ((data.map (fun r => { r with crawl_date := toDateOnly r.crawl_date })).filter
        (fun r => r.crawl_date == toDateOnly cd)).isEmpty = true
    · have hres : fetch_data_tools_for_dashboard data cd = ([], true) := by
        simp only [fetch_data_tools_for_dashboard, hE, Bool.false_eq_true, if_false, hnormF,
          hc, if_true]
      rw [hres]
      exact ⟨rfl, by intro r hr; simp at hr, Or.inl rfl⟩
    · have hres : fetch_data_tools_for_dashboard data cd
          = ((data.map (fun r => { r with crawl_date := toDateOnly r.crawl_date })).filter
              (fun r => r.crawl_date == toDateOnly cd), true) := by
        simp only [fetch_data_tools_for_dashboard, hE, Bool.false_eq_true, if_false, hnormF,
          hc, if_true]
      rw [hres]
      exact ⟨rfl, mem_filter_norm_day data cd, Or.inr (filter_norm_payloads data cd)⟩
  have hsame1 : fetch_openings_company_for_dashboard data cd
      = fetch_data_tools_for_dashboard data cd := rfl
  have hsame2 : fetch_taiepi_area_openings_for_dashboard data cd
      = fetch_data_tools_for_dashboard data cd := rfl
  refine ⟨?_, ?_, htoolsP, ?_, ?_⟩
  · rw [hstats]
    exact ⟨rfl, by intro r hr; simp at hr, rfl⟩
  · rw [hrole]
    exact ⟨rfl, by intro r hr; simp at hr, rfl⟩
  · rw [hsame1]
    exact htoolsP
  · rw [hsame2]
    exact htoolsP

/-- Witness for C1 at a two-row DataFrame with one mismatched marker. -/
theorem wrappers_reject_mismatched_rows_witness :
    (dataMismatch ≠ [] ∧ ∃ r ∈ dataMismatch, r.crawl_date.day ≠ day3.day)
    ∧ (fetch_openings_statistics_for_dashboard dataMismatch day3).2 = true
    ∧ (fetch_data_tools_for_dashboard dataMismatch day3).2 = true := by
  have h := wrappers_reject_mismatched_rows dataMismatch day3 (by decide) (by decide)
  exact ⟨⟨by decide, by decide⟩, h.1.1, h.2.2.1.1⟩

/-- C2 counterexample: a fetched row that is a full timestamp on the same
calendar day as the requested marker is rejected - not accepted as
consistent - by the openings-statistics wrapper, because its comparison is
performed on the raw values without calendar-date coercion. -/
theorem stats_wrapper_rejects_same_day_timestamp :
    (∀ r ∈ dataSameDayStamp, r.crawl_date.day = day3.day)
    ∧ fetch_openings_statistics_for_dashboard dataSameDayStamp day3 = ([], true) := by
  decide

/-- C2 amended: the data-role, data-tools, openings-company and Taipei-area
wrappers coerce both sides to calendar dates before comparison, so a
same-calendar-day result (whatever its time components) is accepted; the
openings-statistics wrapper instead compares raw values and rejects the
whole result whenever any row differs from the requested marker in raw
representation, even on the same calendar day. -/
theorem wrappers_date_coercion_amended (data : List DRow) (cd : DateTimeVal)
    (hne : data ≠ []) (hday : ∀ r ∈ data, r.crawl_date.day = cd.day) :
    fetch_data_role_for_dashboard data cd
      = (data.map (fun r => { r with crawl_date := toDateOnly r.crawl_date }), false)
    ∧ fetch_data_tools_for_dashboard data cd
      = (data.map (fun r => { r with crawl_date := toDateOnly r.crawl_date }), false)
    ∧ fetch_openings_company_for_dashboard data cd
      = (data.map (fun r => { r with crawl_date := toDateOnly r.crawl_date }), false)
    ∧ fetch_taiepi_area_openings_for_dashboard data cd
      = (data.map (fun r => { r with crawl_date := toDateOnly r.crawl_date }), false)
    ∧ ((∃ r ∈ data, r.crawl_date ≠ cd) →
        fetch_openings_statistics_for_dashboard data cd = ([], true)) := by
  have hE : data.isEmpty = false := by
    cases data with
    | nil => exact absurd rfl hne
    | cons a as => rfl
  have hallT := all_norm_eq_true data cd hday
  have hrole : fetch_data_role_for_dashboard data cd
      = (data.map (fun r => { r with crawl_date := toDateOnly r.crawl_date }), false) := by
    simp only [fetch_data_role_for_dashboard, hE, Bool.false_eq_true, if_false, hallT, if_true]
  have htools : fetch_data_tools_for_dashboard data cd
      = (data.map (fun r => { r with crawl_date := toDateOnly r.crawl_date }), false) := by
    simp only [fetch_data_tools_for_dashboard, hE, Bool.false_eq_true, if_false, hallT, if_true]
  refine ⟨hrole, htools, htools, htools, ?_⟩
  rintro ⟨r0, hr0, hne0⟩
  have hrawF : data.all (fun r => r.crawl_date == cd) = false := by
    apply Bool.eq_false_iff.mpr
    intro hall
    rw [List.all_eq_true] at hall
    have h := hall r0 hr0
    rw [beq_iff_eq] at h
    exact hne0 h
  simp [fetch_openings_statistics_for_dashboard, hE, hrawF]

/-- Witness for the amended C2 at a one-row same-day timestamp DataFrame. -/
theorem wrappers_date_coercion_amended_witness :
    (dataSameDayStamp ≠ [] ∧ ∀ r ∈ dataSameDayStamp, r.crawl_date.day = day3.day)
    ∧ fetch_data_tools_for_dashboard dataSameDayStamp day3
      = (dataSameDayStamp.map (fun r => { r with crawl_date := toDateOnly r.crawl_date }), false)
    ∧ fetch_openings_statistics_for_dashboard dataSameDayStamp day3 = ([], true) := by
  have h := wrappers_date_coercion_amended dataSameDayStamp day3 (by decide) (by decide)
  exact ⟨⟨by decide, by decide⟩, h.2.1, h.2.2.2.2 (by decide)⟩

/-- C4: on a metrics table with pairwise-distinct markers, the historical
openings fetch returns exactly the rows whose marker is among the 12 most
recent (all rows when fewer than 12 exist), in strictly ascending marker
order. -/
theorem openings_history_spec (table : List MetricsRow)
    (hdist : table.Pairwise (fun r s => r.crawl_date ≠ s.crawl_date)) :
    ∃ res, (fetch_openings_history (Except.ok (openings_history_query table))).ret = some res
      ∧ res.Pairwise (fun r s => r.crawl_date < s.crawl_date)
      ∧ (∀ r, r ∈ res ↔ r ∈ table
          ∧ table.countP (fun s => decide (r.crawl_date < s.crawl_date)) < 12)
      ∧ res.length = min 12 table.length := by
  have hret : ∀ rows : List MetricsRow,
      (fetch_openings_history (Except.ok rows)).ret = some rows := by
    intro rows
    cases rows with
    | nil => rfl
    | cons r rs => rfl
  have hpermD := sortDescBy_perm (fun r : MetricsRow => r.crawl_date) table
  have hsortD := sortDescBy_sorted (fun r : MetricsRow => r.crawl_date) table
  have hdistD : (sortDescBy (fun r : MetricsRow => r.crawl_date) table).Pairwise
      (fun r s => r.crawl_date ≠ s.crawl_date) :=
    hdist.perm hpermD.symm (fun h => Ne.symm h)
  have hsub : List.Sublist ((sortDescBy (fun r : MetricsRow => r.crawl_date) table).take 12)
      (sortDescBy (fun r : MetricsRow => r.crawl_date) table) := List.take_sublist 12 _
  have hdistT := List.Pairwise.sublist hsub hdistD
  have hpermA := sortAscBy_perm (fun r : MetricsRow => r.crawl_date)
    ((sortDescBy (fun r : MetricsRow => r.crawl_date) table).take 12)
  have hsortA := sortAscBy_sorted (fun r : MetricsRow => r.crawl_date)
    ((sortDescBy (fun r : MetricsRow => r.crawl_date) table).take 12)
  have hdistA : (openings_history_query table).Pairwise
      (fun r s => r.crawl_date ≠ s.crawl_date) :=
    hdistT.perm hpermA.symm (fun h => Ne.symm h)
  refine ⟨openings_history_query table, hret _, ?_, ?_, ?_⟩
  · exact (hsortA.and hdistA).imp (fun h => lt_of_le_of_ne h.1 h.2)
  · intro r
    rw [show openings_history_query table = sortAscBy (fun r : MetricsRow => r.crawl_date)
      ((sortDescBy (fun r : MetricsRow => r.crawl_date) table).take 12) from rfl]
    rw [hpermA.mem_iff]
    rw [mem_take_sorted_iff (fun r : MetricsRow => r.crawl_date) _ hsortD hdistD 12 r]
    rw [hpermD.mem_iff, hpermD.countP_eq]
  · rw [show openings_history_query table = sortAscBy (fun r : MetricsRow => r.crawl_date)
      ((sortDescBy (fun r : MetricsRow => r.crawl_date) table).take 12) from rfl]
    rw [hpermA.length_eq, List.length_take, hpermD.length_eq]

/-- Witness for C4 at a 15-row table with distinct markers. -/
theorem openings_history_spec_witness :
    table15.Pairwise (fun r s => r.crawl_date ≠ s.crawl_date)
    ∧ ∃ res, (fetch_openings_history (Except.ok (openings_history_query table15))).ret = some res
      ∧ res.Pairwise (fun r s => r.crawl_date < s.crawl_date)
      ∧ (∀ r, r ∈ res ↔ r ∈ table15
          ∧ table15.countP (fun s => decide (r.crawl_date < s.crawl_date)) < 12)
      ∧ res.length = min 12 table15.length :=
  ⟨by decide, openings_history_spec table15 (by decide)⟩

/-- C8: with the role and category filters applied only for non-wildcard
selections, the line-chart reduction keeps exactly the tools whose total
summed count across all markers is among the 10 largest (equivalently,
fewer than 10 tools have a strictly larger total), and the bar-chart
reduction keeps exactly the tools with the 5 largest totals; totals are
assumed pairwise distinct, as in the spec's test scenario. -/
theorem tool_topk_spec (rows : List ToolRoleRow) (dr cat : String)
    (hline : (line_tool_totals rows dr cat).Pairwise (fun a b => a.2 ≠ b.2))
    (hbar : (bar_tool_totals rows dr cat).Pairwise (fun a b => a.2 ≠ b.2)) :
    (∀ t : String,
      (∃ e ∈ create_tool_trends_line_chart rows dr cat, e.1.1 = t) ↔
      (∃ c, (t, c) ∈ line_tool_totals rows dr cat
        ∧ (line_tool_totals rows dr cat).countP (fun q => decide (c < q.2)) < 10))
    ∧ (∀ t : String,
      (∃ e ∈ create_tool_popularity_bar_chart rows dr cat, e.1 = t) ↔
      (∃ c, (t, c) ∈ bar_tool_totals rows dr cat
        ∧ (bar_tool_totals rows dr cat).countP (fun q => decide (c < q.2)) < 5)) := by
  have hline_eq : create_tool_trends_line_chart rows dr cat
      = (groupSum (fun r => (r.tool_name, r.crawl_date)) (fun r => r.count)
          (wildcardFilter rows dr cat)).filter
        (fun g => decide (g.1.1 ∈ nlargestKeys 10 (line_tool_totals rows dr cat))) := rfl
  have hbar_eq : create_tool_popularity_bar_chart rows dr cat
      = (sortDescBy (fun p : String × Int => p.2) (bar_tool_totals rows dr cat)).take 5 := rfl
  constructor
  · intro t
    have step1 : (∃ e ∈ create_tool_trends_line_chart rows dr cat, e.1.1 = t) ↔
        (∃ e ∈ groupSum (fun r => (r.tool_name, r.crawl_date)) (fun r => r.count)
            (wildcardFilter rows dr cat), e.1.1 = t)
        ∧ t ∈ nlargestKeys 10 (line_tool_totals rows dr cat) := by
      constructor
      · rintro ⟨e, he, rfl⟩
        rw [hline_eq] at he
        obtain ⟨heG, hef⟩ := List.mem_filter.mp he
        exact ⟨⟨e, heG, rfl⟩, of_decide_eq_true hef⟩
      · rintro ⟨⟨e, heG, rfl⟩, htop⟩
        refine ⟨e, ?_, rfl⟩
        rw [hline_eq]
        exact List.mem_filter.mpr ⟨heG, decide_eq_true htop⟩
    have step2 : t ∈ nlargestKeys 10 (line_tool_totals rows dr cat) ↔
        ∃ c, (t, c) ∈ (sortDescBy (fun p : String × Int => p.2)
          (line_tool_totals rows dr cat)).take 10 := by
      unfold nlargestKeys
      rw [List.mem_map]
      constructor
      · rintro ⟨p, hp, rfl⟩
        exact ⟨p.2, hp⟩
      · rintro ⟨c, hc⟩
        exact ⟨(t, c), hc, rfl⟩
    have step3 : ∀ c : Int, (t, c) ∈ (sortDescBy (fun p : String × Int => p.2)
          (line_tool_totals rows dr cat)).take 10 ↔
        (t, c) ∈ line_tool_totals rows dr cat
        ∧ (line_tool_totals rows dr cat).countP (fun q => decide (c < q.2)) < 10 :=
      fun c => mem_take_sortDesc_pairs (line_tool_totals rows dr cat) hline 10 (t, c)
    constructor
    · intro hL
      obtain ⟨hG, htop⟩ := step1.mp hL
      obtain ⟨c, hc⟩ := step2.mp htop
      exact ⟨c, (step3 c).mp hc⟩
    · rintro ⟨c, hmemT, hcnt⟩
      apply step1.mpr
      refine ⟨?_, step2.mpr ⟨c, (step3 c).mpr ⟨hmemT, hcnt⟩⟩⟩
      exact (groupSum_keys (fun g : (String × Int) × Int => g.1.1) (fun g => g.2) _ t).mp
        ⟨c, hmemT⟩
  · intro t
    constructor
    · rintro ⟨e, he, rfl⟩
      rw [hbar_eq] at he
      have he2 : (e.1, e.2) ∈ (sortDescBy (fun p : String × Int => p.2)
          (bar_tool_totals rows dr cat)).take 5 := by
        rw [Prod.mk.eta]
        exact he
      obtain ⟨hmemT, hcnt⟩ :=
        (mem_take_sortDesc_pairs (bar_tool_totals rows dr cat) hbar 5 (e.1, e.2)).mp he2
      exact ⟨e.2, hmemT, hcnt⟩
    · rintro ⟨c, hmemT, hcnt⟩
      refine ⟨(t, c), ?_, rfl⟩
      rw [hbar_eq]
      exact (mem_take_sortDesc_pairs (bar_tool_totals rows dr cat) hbar 5 (t, c)).mpr
        ⟨hmemT, hcnt⟩

/-- Witness for C8 at a series with 12 tools of distinct totals. -/
theorem tool_topk_spec_witness :
    (line_tool_totals rows12 "All" "All").Pairwise (fun a b => a.2 ≠ b.2)
    ∧ (bar_tool_totals rows12 "All" "All").Pairwise (fun a b => a.2 ≠ b.2)
    ∧ ((∃ e ∈ create_tool_trends_line_chart rows12 "All" "All", e.1.1 = "m") ↔
      (∃ c, ("m", c) ∈ line_tool_totals rows12 "All" "All"
        ∧ (line_tool_totals rows12 "All" "All").countP (fun q => decide (c < q.2)) < 10)) := by
  have h := tool_topk_spec rows12 "All" "All" (by decide) (by decide)
  exact ⟨by decide, by decide, h.1 "m"⟩

/-- A string containing an underscore decomposes as the kept prefix (which
holds no underscore) followed by the first underscore and a remainder. -/
theorem underscore_split (l : List Char) (h : l.contains '_' = true) :
    ∃ suf2, l = l.takeWhile (fun c => c != '_') ++ '_' :: suf2
      ∧ (l.takeWhile (fun c => c != '_')).contains '_' = false := by
  induction l with
  | nil => exact absurd h (by decide)
  | cons a as ih =>
    by_cases ha : a = '_'
    · subst ha
      have ht : ('_' :: as).takeWhile (fun c => c != '_') = [] :=
        List.takeWhile_cons_of_neg (by simp)
      exact ⟨as, by rw [ht]; rfl, by rw [ht]; rfl⟩
    · have has : as.contains '_' = true := by
        rw [List.contains_cons, Bool.or_eq_true] at h
        rcases h with h | h
        · rw [beq_iff_eq] at h
          exact absurd h.symm ha
        · exact h
      obtain ⟨suf2, heq, hcon⟩ := ih has
      have ht : (a :: as).takeWhile (fun c => c != '_')
          = a :: as.takeWhile (fun c => c != '_') :=
        List.takeWhile_cons_of_pos (bne_iff_ne.mpr ha)
      refine ⟨suf2, ?_, ?_⟩
      · rw [ht, List.cons_append]
        exact congrArg (List.cons a) heq
      · rw [ht, List.contains_cons, hcon, Bool.or_false]
        exact beq_eq_false_iff_ne.mpr (Ne.symm ha)

/-- The lazy-group scan captures exactly the characters before the first
closing parenthesis. -/
theorem parenGroupFrom_append (mid suf : List Char) (h : mid.contains ')' = false) :
    parenGroupFrom (mid ++ ')' :: suf) = some mid := by
  induction mid with
  | nil => simp [parenGroupFrom]
  | cons m ms ih =>
    have hm : ¬ m = ')' := by
      intro e
      subst e
      rw [List.contains_cons] at h
      simp at h
    have hms : ms.contains ')' = false := by
      rw [List.contains_cons] at h
      exact (Bool.or_eq_false_iff.mp h).2
    rw [List.cons_append]
    simp [parenGroupFrom, hm, ih hms]

/-- Skipping a non-parenthesis character leaves the regex scan unchanged. -/
theorem firstParenGroup_cons_of_ne (c : Char) (cs : List Char) (hc : ¬ c = '(') :
    firstParenGroup (c :: cs) = firstParenGroup cs := by
  simp [firstParenGroup, hc]

/-- The regex search matches at the leftmost opening parenthesis when it is
followed by a later closing one, capturing the first parenthesized group. -/
theorem firstParenGroup_append (pre mid suf : List Char)
    (hpre : pre.contains '(' = false) (hmid : mid.contains ')' = false) :
    firstParenGroup (pre ++ '(' :: mid ++ ')' :: suf) = some mid := by
  induction pre with
  | nil =>
    rw [List.nil_append, List.cons_append]
    simp [firstParenGroup, parenGroupFrom_append mid suf hmid]
  | cons p ps ih =>
    have hp : ¬ p = '(' := by
      intro e
      subst e
      rw [List.contains_cons] at hpre
      simp at hpre
    have hps : ps.contains '(' = false := by
      rw [List.contains_cons] at hpre
      exact (Bool.or_eq_false_iff.mp hpre).2
    rw [List.append_assoc, List.cons_append, firstParenGroup_cons_of_ne p _ hp,
      ← List.append_assoc]
    exact ih hps

/-- C5 counterexample: the name consisting of a closing parenthesis
followed by an opening one contains both parenthesis characters, yet the
normalization neither returns a parenthesized substring nor the name
unchanged - the Python code calls .group(1) on a failed regex search and
raises, modelled as none. -/
theorem adjust_company_name_paren_crash :
    ([')', '('] : List Char).contains '(' = true
    ∧ ([')', '('] : List Char).contains ')' = true
    ∧ adjust_company_name [')', '('] = none := by
  decide

/-- C5 amended: a name with an underscore maps to the prefix before the
first underscore; a name without an underscore whose first opening
parenthesis is followed by a later closing one maps to the first
parenthesized substring; a name with neither pattern is returned unchanged;
but a name containing both parenthesis characters with no opening one
before a closing one makes the function raise instead of returning. -/
theorem adjust_company_name_amended (name pre mid suf : List Char) :
    (name.contains '_' = true →
      ∃ suf2, adjust_company_name name = some (name.takeWhile (fun c => c != '_'))
        ∧ name = name.takeWhile (fun c => c != '_') ++ '_' :: suf2
        ∧ (name.takeWhile (fun c => c != '_')).contains '_' = false)
    ∧ (name.contains '_' = false → name = pre ++ '(' :: mid ++ ')' :: suf →
        pre.contains '(' = false → mid.contains ')' = false →
        adjust_company_name name = some mid)
    ∧ (name.contains '_' = false → (name.contains '(' && name.contains ')') = false →
        adjust_company_name name = some name)
    ∧ adjust_company_name [')', '('] = none := by
  refine ⟨?_, ?_, ?_, by decide⟩
  · intro hu
    obtain ⟨suf2, heq, hcon⟩ := underscore_split name hu
    refine ⟨suf2, ?_, heq, hcon⟩
    show (if name.contains '_' then some (name.takeWhile (fun c => c != '_'))
      else if name.contains '(' && name.contains ')' then firstParenGroup name
      else some name) = some (name.takeWhile (fun c => c != '_'))
    rw [hu]
    rfl
  · intro hu heq hpre hmid
    have h1 : name.contains '(' = true := by
      rw [heq]
      apply List.elem_iff.mpr
      exact List.mem_append.mpr
        (Or.inl (List.mem_append.mpr (Or.inr (List.mem_cons_self _ _))))
    have h2 : name.contains ')' = true := by
      rw [heq]
      apply List.elem_iff.mpr
      exact List.mem_append.mpr (Or.inr (List.mem_cons_self _ _))
    have hshape : adjust_company_name name = firstParenGroup name := by
      show (if name.contains '_' then some (name.takeWhile (fun c => c != '_'))
        else if name.contains '(' && name.contains ')' then firstParenGroup name
        else some name) = firstParenGroup name
      rw [hu, h1, h2]
      rfl
    rw [hshape, heq]
    exact firstParenGroup_append pre mid suf hpre hmid
  · intro hu hp
    show (if name.contains '_' then some (name.takeWhile (fun c => c != '_'))
      else if name.contains '(' && name.contains ')' then firstParenGroup name
      else some name) = some name
    rw [hu, hp]
    rfl

/-- Witness for the amended C5 at the names Acme_Corp, Foo (Bar Inc) and
PlainName. -/
theorem adjust_company_name_amended_witness :
    nameAcme.contains '_' = true
    ∧ adjust_company_name nameAcme = some ['A', 'c', 'm', 'e']
    ∧ adjust_company_name (namePreFoo ++ '(' :: nameMidBar ++ [')']) = some nameMidBar
    ∧ adjust_company_name namePlain = some namePlain := by
  have h1 := (adjust_company_name_amended nameAcme [] [] []).1 (by decide)
  have h2 := (adjust_company_name_amended (namePreFoo ++ '(' :: nameMidBar ++ [')'])
    namePreFoo nameMidBar []).2.1 (by decide) (by decide) (by decide) (by decide)
  have h3 := (adjust_company_name_amended namePlain [] [] []).2.2.1 (by decide) (by decide)
  refine ⟨by decide, ?_, h2, h3⟩
  obtain ⟨suf2, hval, hdec, hcon⟩ := h1
  rw [hval]
  decide
